import Mathlib

/-!
Verification of the experimental loss functions of the ivy tensor library
(`ivy/functional/ivy/experimental/losses.py`): `binary_cross_entropy_with_logits`,
`mse_loss` and `mae_loss`.

Tensors are embedded as a shape together with flattened data over `ℚ` (the
backend numerics, modelled exactly).  The backend primitives `sigmoid` and
`log` are transcendental and supplied by the host framework, so they are
abstracted as function parameters; `clip`, `square`, `abs`, `mean` and the
reduction helper have exact rational meaning and are defined here.
Fallible functions return `Except String`; the second component of a result
is the content of the caller-supplied output buffer after the call, when a
buffer was supplied.
-/

namespace Ivy

/-- A tensor: a shape and the flattened numeric data. -/
structure Tensor where
  shape : List ℕ
  data : List ℚ
deriving DecidableEq

/-- Elementwise unary map over a tensor (shape preserved). -/
def map1 (f : ℚ → ℚ) (t : Tensor) : Tensor :=
  ⟨t.shape, t.data.map f⟩

/-- Elementwise binary operation over two same-shaped tensors. -/
def zipW (f : ℚ → ℚ → ℚ) (a b : Tensor) : Tensor :=
  ⟨a.shape, List.zipWith f a.data b.data⟩

/-- Elementwise ternary operation over three same-shaped tensors. -/
def zipW3 (f : ℚ → ℚ → ℚ → ℚ) (a b c : Tensor) : Tensor :=
  ⟨a.shape, List.zipWith3 f a.data b.data c.data⟩

/-- `true - pred`, elementwise tensor subtraction. -/
def Tensor.sub (a b : Tensor) : Tensor :=
  zipW (fun x y => x - y) a b

/-- `ivy.square`: elementwise square. -/
def Tensor.square (t : Tensor) : Tensor :=
  map1 (fun x => x * x) t

/-- `ivy.abs`: elementwise absolute value. -/
def Tensor.abs (t : Tensor) : Tensor :=
  map1 (fun x => |x|) t

/-- The mean of all elements of a tensor (`ivy.mean` with `axis=None`).
The empty tensor yields `0 / 0 = 0` in `ℚ`. -/
def Tensor.meanAll (t : Tensor) : ℚ :=
  t.data.sum / (t.data.length : ℚ)

/-- `ivy.mean(t, keepdims=True)` with no axis: the mean over all elements,
with every axis kept at extent 1 (rank-preserving reduced shape). -/
def mean_keepdims (t : Tensor) : Tensor :=
  ⟨t.shape.map (fun _ => 1), [t.meanAll]⟩

/-- `ivy.clip(t, lo, hi)`: elementwise clamp into `[lo, hi]`
(maximum with `lo` first, then minimum with `hi`). -/
def clip (t : Tensor) (lo hi : ℚ) : Tensor :=
  map1 (fun x => min (max x lo) hi) t

/-- Modelled from the spec: `ivy.utils.assertions.check_elem_in_list`
(utility validation, outside this excerpt) checks membership of the
reduction string in the closed set and fails with a value-error kind
otherwise, before any tensor computation. -/
def check_elem_in_list (x : String) (l : List String) : Except String Unit :=
  if x ∈ l then Except.ok () else Except.error "IvyException: value-error: element not found in list"

/-- Modelled from the spec: the shared reduction helper `_reduce_loss` from
`ivy.functional.ivy.losses` (consumed, not defined, in this excerpt): given a
reduction mode and a tensor it returns the tensor unchanged for "none", its
sum for "sum", or its mean for "mean" (the call sites here always pass
`axis=None`, so the reduction is over all elements), writing the result into
the output buffer when one is supplied. -/
def reduce_loss (reduction : String) (x : Tensor) (out : Option Tensor) :
    Tensor × Option Tensor :=
  let r : Tensor :=
    if reduction = "sum" then ⟨[], [x.data.sum]⟩
    else if reduction = "mean" then ⟨[], [x.meanAll]⟩
    else x
  (r, out.map (fun _ => r))

/-- Modelled from the spec: the unweighted binary-cross-entropy primitive
`ivy.binary_cross_entropy` (outside this excerpt).  It validates the
reduction mode, smooths the probabilities away from 0 and 1 by `epsilon`,
computes the elementwise cross entropy `-(t * log p + (1 - t) * log (1 - p))`
and applies the reduction, writing into the output buffer when supplied. -/
def binary_cross_entropy (log : ℚ → ℚ) (t p : Tensor) (epsilon : ℚ)
    (reduction : String) (out : Option Tensor) :
    Except String (Tensor × Option Tensor) :=
  match check_elem_in_list reduction ["none", "sum", "mean"] with
  | Except.error e => Except.error e
  | Except.ok _ =>
      let pc := clip p epsilon (1 - epsilon)
      Except.ok (reduce_loss reduction
        (zipW (fun ti pi => -(ti * log pi + (1 - ti) * log (1 - pi))) t pc) out)

/-- `binary_cross_entropy_with_logits` from the source: validate the
reduction, apply `sigmoid` to the logits, then either compute the
`pos_weight`-weighted cross entropy on clipped probabilities and reduce it,
or delegate to the unweighted primitive. -/
def binary_cross_entropy_with_logits (sigmoid log : ℚ → ℚ) (t p : Tensor)
    (epsilon : ℚ) (pos_weight : Option Tensor) (reduction : String)
    (out : Option Tensor) : Except String (Tensor × Option Tensor) :=
  match check_elem_in_list reduction ["none", "sum", "mean"] with
  | Except.error e => Except.error e
  | Except.ok _ =>
      let pred := map1 sigmoid p
      match pos_weight with
      | some w =>
          let pc := clip pred epsilon (1 - epsilon)
          Except.ok (reduce_loss reduction
            (zipW3 (fun ti pi wi =>
              -(ti * -(log pi) * wi + (1 - ti) * -(log (1 - pi)))) t pc w) out)
      | none => binary_cross_entropy log t pred epsilon reduction out

/-- `mse_loss` from the source: validate the reduction, take the keepdims
mean of the elementwise squared difference, then reduce. -/
def mse_loss (t p : Tensor) (reduction : String) (out : Option Tensor) :
    Except String (Tensor × Option Tensor) :=
  match check_elem_in_list reduction ["none", "sum", "mean"] with
  | Except.error e => Except.error e
  | Except.ok _ =>
      Except.ok (reduce_loss reduction (mean_keepdims (Tensor.square (Tensor.sub t p))) out)

/-- `mae_loss` from the source: validate the reduction, take the keepdims
mean of the elementwise absolute difference, then reduce. -/
def mae_loss (t p : Tensor) (reduction : String) (out : Option Tensor) :
    Except String (Tensor × Option Tensor) :=
  match check_elem_in_list reduction ["none", "sum", "mean"] with
  | Except.error e => Except.error e
  | Except.ok _ =>
      Except.ok (reduce_loss reduction (mean_keepdims (Tensor.abs (Tensor.sub t p))) out)

/-- The loss value a call returns, discarding the output-buffer component. -/
def lossData (r : Except String (Tensor × Option Tensor)) : Except String (List ℚ) :=
  r.map (fun x => x.1.data)

/-- The aliasing contract for a call made with an output buffer: when the call
succeeds, the buffer content after the call equals the returned value. -/
def out_buffer_matches_return : Except String (Tensor × Option Tensor) → Prop
  | Except.ok (v, b) => b = some v
  | Except.error _ => True

/-- A valid reduction string makes the membership validation succeed. -/
theorem check_ok {r : String} (hr : r ∈ ["none", "sum", "mean"]) :
    check_elem_in_list r ["none", "sum", "mean"] = Except.ok () := by
  simp [check_elem_in_list, hr]

/-- The keepdims mean of the squared difference, with the squared difference
fused into a single elementwise pass. -/
theorem msq_data (t p : Tensor) :
    mean_keepdims (Tensor.square (Tensor.sub t p))
      = ⟨t.shape.map (fun _ => 1),
         [(List.zipWith (fun a b => (a - b) * (a - b)) t.data p.data).sum
            / ((List.zipWith (fun a b => (a - b) * (a - b)) t.data p.data).length : ℚ)]⟩ := by
  have hq : List.map (fun x => x * x) (List.zipWith (fun x y => x - y) t.data p.data)
      = List.zipWith (fun a b => (a - b) * (a - b)) t.data p.data :=
    List.map_zipWith _ _ _ _
  simp only [mean_keepdims, Tensor.meanAll, Tensor.square, Tensor.sub, map1, zipW, hq]

/-- The keepdims mean of the absolute difference, with the absolute difference
fused into a single elementwise pass. -/
theorem mabs_data (t p : Tensor) :
    mean_keepdims (Tensor.abs (Tensor.sub t p))
      = ⟨t.shape.map (fun _ => 1),
         [(List.zipWith (fun a b => |a - b|) t.data p.data).sum
            / ((List.zipWith (fun a b => |a - b|) t.data p.data).length : ℚ)]⟩ := by
  have hq : List.map (fun x => |x|) (List.zipWith (fun x y => x - y) t.data p.data)
      = List.zipWith (fun a b => |a - b|) t.data p.data :=
    List.map_zipWith _ _ _ _
  simp only [mean_keepdims, Tensor.meanAll, Tensor.abs, Tensor.sub, map1, zipW, hq]

/-- C1 (counterexample): for true = [1,2,3,4] and pred = [0.9,2.1,2.8,4.2],
`mse_loss` with reduction "mean" returns exactly 1/40 = 0.025, which is not
approximately 0.1075: it differs from 0.1075 by 33/400 = 0.0825, far more
than any reasonable tolerance such as 0.01.  The claimed value 0.1075
contradicts the mean of the elementwise squared differences. -/
theorem C1_mse_example_counterexample :
    lossData (mse_loss ⟨[4], [1, 2, 3, 4]⟩ ⟨[4], [9/10, 21/10, 28/10, 42/10]⟩ "mean" none)
      = Except.ok [1/40]
    ∧ |(1/40 : ℚ) - 1075/10000| = 33/400
    ∧ (1/100 : ℚ) < 33/400 := by
  refine ⟨?_, by norm_num, by norm_num⟩
  simp [lossData, Except.map, mse_loss, check_elem_in_list, reduce_loss, mean_keepdims,
    Tensor.meanAll, Tensor.square, Tensor.sub, map1, zipW]
  norm_num

/-- C1 (amended): for true = [1,2,3,4] and pred = [0.9,2.1,2.8,4.2],
`mse_loss` with reduction "mean" returns exactly 1/40 = 0.025 (the mean of the
elementwise squared differences) and `mae_loss` with reduction "mean" returns
exactly 3/20 = 0.15 (the mean of the elementwise absolute differences). -/
theorem C1_example_values_amended :
    lossData (mse_loss ⟨[4], [1, 2, 3, 4]⟩ ⟨[4], [9/10, 21/10, 28/10, 42/10]⟩ "mean" none)
      = Except.ok [1/40]
    ∧ lossData (mae_loss ⟨[4], [1, 2, 3, 4]⟩ ⟨[4], [9/10, 21/10, 28/10, 42/10]⟩ "mean" none)
      = Except.ok [3/20] := by
  constructor
  · simp [lossData, Except.map, mse_loss, check_elem_in_list, reduce_loss, mean_keepdims,
      Tensor.meanAll, Tensor.square, Tensor.sub, map1, zipW]
    norm_num
  · simp [lossData, Except.map, mae_loss, check_elem_in_list, reduce_loss, mean_keepdims,
      Tensor.meanAll, Tensor.abs, Tensor.sub, map1, zipW]
    norm_num [abs_of_nonneg, abs_of_nonpos]

/-- C2: for every pair of input tensors and every valid reduction, `mse_loss`
first computes the mean of the elementwise squared difference over all
elements as a single-element tensor whose shape keeps one extent-1 axis per
input axis, then applies the requested reduction to that mean; with reduction
"none" it returns that keepdims mean itself (also writing it to the output
buffer when one is supplied), not the per-element squared differences.
`mae_loss` behaves identically with the absolute difference. -/
theorem C2_mean_keepdims_then_reduce (t p : Tensor) (o : Option Tensor) (r : String)
    (hr : r ∈ ["none", "sum", "mean"]) :
    (mse_loss t p r o
        = Except.ok (reduce_loss r
            ⟨t.shape.map (fun _ => 1),
             [(List.zipWith (fun a b => (a - b) * (a - b)) t.data p.data).sum
                / ((List.zipWith (fun a b => (a - b) * (a - b)) t.data p.data).length : ℚ)]⟩ o)
      ∧ mse_loss t p "none" o
        = Except.ok
            (⟨t.shape.map (fun _ => 1),
              [(List.zipWith (fun a b => (a - b) * (a - b)) t.data p.data).sum
                 / ((List.zipWith (fun a b => (a - b) * (a - b)) t.data p.data).length : ℚ)]⟩,
             o.map (fun _ =>
               (⟨t.shape.map (fun _ => 1),
                 [(List.zipWith (fun a b => (a - b) * (a - b)) t.data p.data).sum
                    / ((List.zipWith (fun a b => (a - b) * (a - b)) t.data p.data).length : ℚ)]⟩ :
                 Tensor))))
    ∧ (mae_loss t p r o
        = Except.ok (reduce_loss r
            ⟨t.shape.map (fun _ => 1),
             [(List.zipWith (fun a b => |a - b|) t.data p.data).sum
                / ((List.zipWith (fun a b => |a - b|) t.data p.data).length : ℚ)]⟩ o)
      ∧ mae_loss t p "none" o
        = Except.ok
            (⟨t.shape.map (fun _ => 1),
              [(List.zipWith (fun a b => |a - b|) t.data p.data).sum
                 / ((List.zipWith (fun a b => |a - b|) t.data p.data).length : ℚ)]⟩,
             o.map (fun _ =>
               (⟨t.shape.map (fun _ => 1),
                 [(List.zipWith (fun a b => |a - b|) t.data p.data).sum
                    / ((List.zipWith (fun a b => |a - b|) t.data p.data).length : ℚ)]⟩ :
                 Tensor)))) := by
  refine ⟨⟨?_, ?_⟩, ?_, ?_⟩
  · simp only [mse_loss, check_ok hr, ← msq_data]
  · simp only [mse_loss, check_ok (by decide : ("none" : String) ∈ ["none", "sum", "mean"]),
      ← msq_data]
    rfl
  · simp only [mae_loss, check_ok hr, ← mabs_data]
  · simp only [mae_loss, check_ok (by decide : ("none" : String) ∈ ["none", "sum", "mean"]),
      ← mabs_data]
    rfl

/-- C2 (witness): at true = [1,3], pred = [2,5], reduction "none" and no
output buffer, `mse_loss` returns the keepdims mean of the squared
differences, obtained by applying the C2 theorem at these concrete inputs. -/
theorem C2_mean_keepdims_then_reduce_witness :
    mse_loss ⟨[2], [1, 3]⟩ ⟨[2], [2, 5]⟩ "none" none
      = Except.ok
          (⟨[1],
            [(List.zipWith (fun a b => (a - b) * (a - b)) [(1:ℚ), 3] [2, 5]).sum
               / ((List.zipWith (fun a b => (a - b) * (a - b)) [(1:ℚ), 3] [2, 5]).length : ℚ)]⟩,
           none) :=
  ((C2_mean_keepdims_then_reduce ⟨[2], [1, 3]⟩ ⟨[2], [2, 5]⟩ none "none"
    (by decide)).1).2

/-- C3: for every pair of inputs (and any `epsilon`, `pos_weight` and output
buffers), each of `binary_cross_entropy_with_logits`, `mse_loss` and
`mae_loss` satisfies: the "sum" reduction returns the sum over all elements of
the "none" reduction, and the "mean" reduction returns that sum divided by
the element count of the "none" result. -/
theorem C3_reduction_consistency (sig log : ℚ → ℚ) (t p : Tensor) (eps : ℚ)
    (pw : Option Tensor) (o1 o2 o3 : Option Tensor) :
    lossData (binary_cross_entropy_with_logits sig log t p eps pw "sum" o2)
        = (lossData (binary_cross_entropy_with_logits sig log t p eps pw "none" o1)).map
            (fun d => [d.sum])
      ∧ lossData (binary_cross_entropy_with_logits sig log t p eps pw "mean" o3)
        = (lossData (binary_cross_entropy_with_logits sig log t p eps pw "none" o1)).map
            (fun d => [d.sum / (d.length : ℚ)])
      ∧ lossData (mse_loss t p "sum" o2)
        = (lossData (mse_loss t p "none" o1)).map (fun d => [d.sum])
      ∧ lossData (mse_loss t p "mean" o3)
        = (lossData (mse_loss t p "none" o1)).map (fun d => [d.sum / (d.length : ℚ)])
      ∧ lossData (mae_loss t p "sum" o2)
        = (lossData (mae_loss t p "none" o1)).map (fun d => [d.sum])
      ∧ lossData (mae_loss t p "mean" o3)
        = (lossData (mae_loss t p "none" o1)).map (fun d => [d.sum / (d.length : ℚ)]) := by
  cases pw <;> exact ⟨rfl, rfl, rfl, rfl, rfl, rfl⟩

/-- C4: for every call of `binary_cross_entropy_with_logits` that supplies a
positive-weight tensor and a valid reduction, the probabilities
`sigmoid pred` are clipped into the interval from epsilon to 1 - epsilon, the
pre-reduction loss tensor is the elementwise
`-(true * -log p * pos_weight + (1 - true) * -log (1 - p))` over the clipped
probabilities, and the requested reduction is applied to that tensor. -/
theorem C4_pos_weight_branch (sig log : ℚ → ℚ) (t p w : Tensor) (eps : ℚ) (r : String)
    (o : Option Tensor) (hr : r ∈ ["none", "sum", "mean"]) :
    binary_cross_entropy_with_logits sig log t p eps (some w) r o
      = Except.ok (reduce_loss r
          (zipW3 (fun ti pi wi => -(ti * -(log pi) * wi + (1 - ti) * -(log (1 - pi))))
            t (clip (map1 sig p) eps (1 - eps)) w) o) := by
  simp only [binary_cross_entropy_with_logits, check_ok hr]

/-- C4 (witness): the C4 theorem applied at concrete inputs (identity backend
primitives, true = [1], logits = [3], pos_weight = [2], epsilon = 1/2,
reduction "mean"). -/
theorem C4_pos_weight_branch_witness :
    binary_cross_entropy_with_logits (fun q => q) (fun q => q) ⟨[1], [1]⟩ ⟨[1], [3]⟩
        (1/2) (some ⟨[1], [2]⟩) "mean" none
      = Except.ok (reduce_loss "mean"
          (zipW3 (fun ti pi wi => -(ti * -((fun q => q) pi) * wi
              + (1 - ti) * -((fun q => q) (1 - pi))))
            ⟨[1], [1]⟩ (clip (map1 (fun q => q) ⟨[1], [3]⟩) (1/2) (1 - 1/2)) ⟨[1], [2]⟩) none) :=
  C4_pos_weight_branch (fun q => q) (fun q => q) ⟨[1], [1]⟩ ⟨[1], [3]⟩ ⟨[1], [2]⟩
    (1/2) "mean" none (by decide)

/-- C5: for every call of `binary_cross_entropy_with_logits` without a
positive weight, the result (value, output-buffer effect, and error behavior
alike) equals the unweighted binary-cross-entropy primitive applied to the
true labels and `sigmoid pred`, called with the same epsilon, reduction and
output buffer; no clipping happens at this layer in that case. -/
theorem C5_delegates_unweighted (sig log : ℚ → ℚ) (t p : Tensor) (eps : ℚ) (r : String)
    (o : Option Tensor) :
    binary_cross_entropy_with_logits sig log t p eps none r o
      = binary_cross_entropy log t (map1 sig p) eps r o := by
  cases hc : check_elem_in_list r ["none", "sum", "mean"] with
  | error e => simp only [binary_cross_entropy_with_logits, binary_cross_entropy, hc]
  | ok u => simp only [binary_cross_entropy_with_logits, hc]

/-- C6: for every call of `binary_cross_entropy_with_logits`, `mse_loss` or
`mae_loss` with a reduction string outside the set containing "none", "sum"
and "mean", the call fails with the value-error kind raised by the membership
validation, which runs before any tensor computation: no loss value is
produced and no output buffer is written. -/
theorem C6_invalid_reduction_errors (sig log : ℚ → ℚ) (t p : Tensor) (eps : ℚ)
    (pw : Option Tensor) (r : String) (o : Option Tensor)
    (hr : r ∉ ["none", "sum", "mean"]) :
    binary_cross_entropy_with_logits sig log t p eps pw r o
        = Except.error "IvyException: value-error: element not found in list"
      ∧ mse_loss t p r o
        = Except.error "IvyException: value-error: element not found in list"
      ∧ mae_loss t p r o
        = Except.error "IvyException: value-error: element not found in list" := by
  have hc : check_elem_in_list r ["none", "sum", "mean"]
      = Except.error "IvyException: value-error: element not found in list" := by
    simp [check_elem_in_list, hr]
  exact ⟨by simp only [binary_cross_entropy_with_logits, hc],
    by simp only [mse_loss, hc], by simp only [mae_loss, hc]⟩

/-- C6 (witness): the C6 theorem applied at reduction "median", which is not
in the valid set, on concrete inputs: all three functions fail. -/
theorem C6_invalid_reduction_errors_witness :
    binary_cross_entropy_with_logits (fun q => q) (fun q => q) ⟨[1], [1]⟩ ⟨[1], [3]⟩
          (1/2) none "median" none
        = Except.error "IvyException: value-error: element not found in list"
      ∧ mse_loss ⟨[1], [1]⟩ ⟨[1], [3]⟩ "median" none
        = Except.error "IvyException: value-error: element not found in list"
      ∧ mae_loss ⟨[1], [1]⟩ ⟨[1], [3]⟩ "median" none
        = Except.error "IvyException: value-error: element not found in list" :=
  C6_invalid_reduction_errors (fun q => q) (fun q => q) ⟨[1], [1]⟩ ⟨[1], [3]⟩ (1/2)
    none "median" none (by decide)

/-- C7: for every tensor `t` and every valid reduction mode, `mse_loss t t`
yields an all-zero loss result: the returned data is the single element 0. -/
theorem C7_mse_self_zero (t : Tensor) (r : String) (o : Option Tensor)
    (hr : r ∈ ["none", "sum", "mean"]) :
    lossData (mse_loss t t r o) = Except.ok [0] := by
  have h0 : mean_keepdims (Tensor.square (Tensor.sub t t))
      = ⟨t.shape.map (fun _ => 1), [0]⟩ := by
    simp [mean_keepdims, Tensor.meanAll, Tensor.square, Tensor.sub, map1, zipW,
      List.zipWith_same]
  simp only [List.mem_cons, List.not_mem_nil, or_false] at hr
  rcases hr with rfl | rfl | rfl <;>
    simp [lossData, Except.map, mse_loss, check_elem_in_list, reduce_loss, h0, Tensor.meanAll]

/-- C7 (witness): the C7 theorem applied at `t` = [1,2] with reduction
"sum": the loss of a tensor against itself is zero. -/
theorem C7_mse_self_zero_witness :
    lossData (mse_loss ⟨[2], [1, 2]⟩ ⟨[2], [1, 2]⟩ "sum" none) = Except.ok [0] :=
  C7_mse_self_zero ⟨[2], [1, 2]⟩ "sum" none (by decide)

/-- C8: for every call of `binary_cross_entropy_with_logits`, `mse_loss` or
`mae_loss` that supplies an output buffer, if the call does not fail
validation then the buffer content after the call equals the returned
value. -/
theorem C8_out_buffer_aliasing (sig log : ℚ → ℚ) (t p : Tensor) (eps : ℚ)
    (pw : Option Tensor) (r : String) (buf : Tensor) :
    out_buffer_matches_return
        (binary_cross_entropy_with_logits sig log t p eps pw r (some buf))
      ∧ out_buffer_matches_return (mse_loss t p r (some buf))
      ∧ out_buffer_matches_return (mae_loss t p r (some buf)) := by
  cases hc : check_elem_in_list r ["none", "sum", "mean"] with
  | error e =>
      cases pw <;>
        exact ⟨by simp only [binary_cross_entropy_with_logits, binary_cross_entropy, hc]; trivial,
          by simp only [mse_loss, hc]; trivial, by simp only [mae_loss, hc]; trivial⟩
  | ok u =>
      cases pw <;> refine ⟨?_, ?_, ?_⟩ <;>
        simp only [binary_cross_entropy_with_logits, binary_cross_entropy, mse_loss,
          mae_loss, hc] <;> rfl

/-- C9: in the pos_weight branch, for every epsilon with 0 < epsilon ≤ 1/2,
every element of the clipped probability tensor `clip (sigmoid pred) eps
(1 - eps)` lies between epsilon and 1 - epsilon, so both arguments ever
passed to log there — the element and one minus the element — are strictly
positive and the log-of-zero error case is unreachable. -/
theorem C9_clip_strictly_positive (sig : ℚ → ℚ) (p : Tensor) (eps : ℚ)
    (h1 : 0 < eps) (h2 : eps ≤ 1/2) :
    ∀ x ∈ (clip (map1 sig p) eps (1 - eps)).data,
      (eps ≤ x ∧ x ≤ 1 - eps) ∧ 0 < x ∧ 0 < 1 - x := by
  intro x hx
  have hle : eps ≤ 1 - eps := by linarith
  simp only [clip, map1, List.mem_map] at hx
  obtain ⟨y, hy, rfl⟩ := hx
  have hxe : eps ≤ min (max y eps) (1 - eps) := le_min (le_max_right _ _) hle
  have hxu : min (max y eps) (1 - eps) ≤ 1 - eps := min_le_right _ _
  exact ⟨⟨hxe, hxu⟩, lt_of_lt_of_le h1 hxe, by linarith⟩

/-- C9 (witness): the C9 theorem applied at the identity sigmoid, logits
tensor [2] and epsilon = 1/2 (whose hypotheses 0 < 1/2 and 1/2 ≤ 1/2 hold),
evaluated at the single element of the clipped tensor. -/
theorem C9_clip_strictly_positive_witness :
    ((1:ℚ)/2 ≤ min (max (2:ℚ) (1/2)) (1 - 1/2)
        ∧ min (max (2:ℚ) (1/2)) (1 - 1/2) ≤ 1 - 1/2)
      ∧ 0 < min (max (2:ℚ) (1/2)) (1 - 1/2)
      ∧ 0 < 1 - min (max (2:ℚ) (1/2)) (1 - 1/2) :=
  C9_clip_strictly_positive (fun q => q) ⟨[1], [2]⟩ (1/2) (by simp) (le_refl _)
    (min (max (2:ℚ) (1/2)) (1 - 1/2)) (by simp [clip, map1])

/-- C10: for every pair of input tensors, `mse_loss` returns the same
single-element data — the mean of the elementwise squared differences — under
reduction "none", "sum" and "mean" alike, and `mae_loss` likewise with the
mean of the elementwise absolute differences; in particular neither function
ever returns a per-element loss tensor. -/
theorem C10_reduction_invariant_value (t p : Tensor) (o1 o2 o3 o4 o5 o6 : Option Tensor) :
    lossData (mse_loss t p "none" o1) = Except.ok [(Tensor.square (Tensor.sub t p)).meanAll]
      ∧ lossData (mse_loss t p "sum" o2) = Except.ok [(Tensor.square (Tensor.sub t p)).meanAll]
      ∧ lossData (mse_loss t p "mean" o3) = Except.ok [(Tensor.square (Tensor.sub t p)).meanAll]
      ∧ lossData (mae_loss t p "none" o4) = Except.ok [(Tensor.abs (Tensor.sub t p)).meanAll]
      ∧ lossData (mae_loss t p "sum" o5) = Except.ok [(Tensor.abs (Tensor.sub t p)).meanAll]
      ∧ lossData (mae_loss t p "mean" o6) = Except.ok [(Tensor.abs (Tensor.sub t p)).meanAll] := by
  refine ⟨rfl, ?_, ?_, rfl, ?_, ?_⟩
  · show Except.ok [List.sum [(Tensor.square (Tensor.sub t p)).meanAll]] = _
    simp
  · show Except.ok [(mean_keepdims (Tensor.square (Tensor.sub t p))).meanAll] = _
    simp [Tensor.meanAll, mean_keepdims]
  · show Except.ok [List.sum [(Tensor.abs (Tensor.sub t p)).meanAll]] = _
    simp
  · show Except.ok [(mean_keepdims (Tensor.abs (Tensor.sub t p))).meanAll] = _
    simp [Tensor.meanAll, mean_keepdims]

end Ivy
